import Mathlib

/-!
Shallow embedding of the Hyperledger Fabric chaincode in
asset-transfer-basic/chaincode-go/chaincode/inventory.go (the authoritative
variant: the claims cite it).  The external world-state store is modelled by
passing the Ledger value explicitly; each state-changing operation returns,
on success, the final ledger together with the chronological list of ledger
writes it performed (one entry per updateLedger / PutState call on the
single ledger key).  An error return performs no write, matching both the
code (every error path returns before updateLedger) and the platform
(a chaincode error aborts the transaction).  The caller-side context
(the MSP identifier of the client identity plus the implicit private
collection of the organization) is modelled by the Caller structure.
-/

namespace FabricInventory

/-- Model of Go time.Time restricted to what the chaincode observes: a
calendar instant.  The zero value models the Go zero time.Time used by the
code to clear answer timestamps. -/
structure GoTime where
  year : Nat
  month : Nat
  day : Nat
  hour : Nat
  minute : Nat
  second : Nat
deriving DecidableEq, Repr

/-- The Go zero value time.Time, stored by the code when it clears an
AnswerResponse timestamp. -/
def GoTime.zero : GoTime := ⟨0, 0, 0, 0, 0, 0⟩

/-- AgencyMBSPassthrough, the public bond record of inventory.go. -/
structure AgencyMBSPassthrough where
  uid : String
  bond : String
  cusip : String
  originalFace : Int
  ownerHash : String
  class1 : String
deriving DecidableEq, Repr

/-- PrivateBond, the private reserve-price extension kept in the
organization private collection.  The reserve price (a Go float64) is
modelled as a rational number. -/
structure PrivateBond where
  uid : String
  reservePrice : ℚ
deriving DecidableEq, Repr

/-- AnswerResponse: a response value together with its timestamp. -/
structure AnswerResponse where
  value : String
  timestamp : GoTime
deriving DecidableEq, Repr

/-- Answer entry of a direct trade, keyed by the seller identity hash. -/
structure Answer where
  sellerIDHash : String
  sellerResponse : AnswerResponse
  buyerResponse : AnswerResponse
deriving DecidableEq, Repr

/-- DirectTrade of inventory.go.  The bid price (a Go float64) is modelled
as a rational number. -/
structure DirectTrade where
  directTradeID : String
  cusip : String
  originalFace : Int
  bidPrice : ℚ
  bidderHash : String
  state : String
  answers : List Answer
  createdAt : GoTime
deriving DecidableEq, Repr

/-- Transaction record appended on settlement.  BoughtPrice is a string in
the source because the code stores the two-decimal rendering of the bid
price. -/
structure Transaction where
  buyerID : String
  sellerID : String
  cusip : String
  originalFace : Int
  boughtPrice : String
  timestamp : GoTime
deriving DecidableEq, Repr

/-- The aggregate ledger document stored under the single ledger key. -/
structure Ledger where
  bonds : List AgencyMBSPassthrough
  directTrades : List DirectTrade
  transactions : List Transaction
deriving DecidableEq, Repr

/-- Caller context: the MSP identifier returned by the client identity of
the transaction context, together with the contents of the implicit
private collection of that organization (the encryption_key entry, absent
until SetEncryptionKey runs, and the private_bonds_information list). -/
structure Caller where
  mspID : String
  encryptionKey : Option String
  privateBonds : List PrivateBond
deriving DecidableEq, Repr

/-- getEncryptionKey: reads the encryption_key entry of the caller private
collection, failing when it is absent. -/
def getEncryptionKey (c : Caller) : Except String String :=
  match c.encryptionKey with
  | some k => .ok k
  | none => .error ("_implicit_org_" ++ c.mspID ++ " - encryption key not found")

/-- GenerateOrgHash: returns the value of the private collection entry
encryption_key.  Note it takes no timestamp argument in the source. -/
def GenerateOrgHash (c : Caller) : Except String String :=
  getEncryptionKey c

/-- IsOwner: compares the candidate hash with the encryption key of the
caller; any failure to read the key yields false. -/
def IsOwner (c : Caller) (ownerHash : String) : Bool :=
  match c.encryptionKey with
  | some k => ownerHash == k
  | none => false

/-- getPrivateBond: looks the uid up in the private_bonds_information list
of the caller and fails when it is absent. -/
def getPrivateBond (c : Caller) (uid : String) : Except String PrivateBond :=
  match c.privateBonds.find? (fun b => b.uid == uid) with
  | some b => .ok b
  | none => .error ("private bond with UID " ++ uid ++ " not found")

/-- First-match search returning the index and the element, modelling the
Go loops that break at the first element satisfying the condition. -/
def findWithIdx (p : α → Bool) : List α → Option (Nat × α)
  | [] => none
  | x :: rest =>
    if p x then some (0, x)
    else (findWithIdx p rest).map (fun q => (q.1 + 1, q.2))

/-- The loop of AnswerTrade, AnswerTradeAsOwner and CloseDirectTrade that
locates the first trade with the given DirectTradeID. -/
def findTrade (id : String) (l : List DirectTrade) : Option (Nat × DirectTrade) :=
  findWithIdx (fun t => t.directTradeID == id) l

/-- The loop of AnswerTrade and AnswerTradeAsOwner that locates the first
answer entry with the given seller identity hash. -/
def findAnswer (sellerIDHash : String) (l : List Answer) : Option (Nat × Answer) :=
  findWithIdx (fun a => a.sellerIDHash == sellerIDHash) l

/-- The fresh Answer object created by AnswerTrade and AnswerTradeAsOwner
when no entry for the seller exists yet. -/
def emptyAnswer (sellerIDHash : String) : Answer :=
  ⟨sellerIDHash, ⟨"", GoTime.zero⟩, ⟨"", GoTime.zero⟩⟩

/-- The bond-transfer loop of AnswerTradeAsOwner: reassign the ownerHash of
the first bond whose ownerHash equals the seller hash, then break.  Note
the source filters on ownerHash only, not on cusip or originalFace. -/
def transferFirst (sellerIDHash bidderHash : String) : List AgencyMBSPassthrough → List AgencyMBSPassthrough
  | [] => []
  | b :: rest =>
    if b.ownerHash == sellerIDHash then { b with ownerHash := bidderHash } :: rest
    else b :: transferFirst sellerIDHash bidderHash rest

/-- Decimal digit value of a character, for the fixed-layout time parser. -/
def digitVal (ch : Char) : Option Nat :=
  if ch.isDigit then some (ch.toNat - 48) else none

/-- Model of Go time.Parse on the fixed layout used by CreateTrade
(year-month-day, capital T, hour-minute-second, capital Z).  The month
dependent refinement of the day-of-month check performed by Go is elided;
no claim depends on it. -/
def parseTimeZ (s : String) : Except String GoTime :=
  match s.toList with
  | [y1, y2, y3, y4, c1, m1, m2, c2, d1, d2, c3, h1, h2, c4, n1, n2, c5, s1, s2, c6] =>
    if c1 = '-' ∧ c2 = '-' ∧ c3 = 'T' ∧ c4 = ':' ∧ c5 = ':' ∧ c6 = 'Z' then
      match digitVal y1, digitVal y2, digitVal y3, digitVal y4, digitVal m1, digitVal m2,
            digitVal d1, digitVal d2, digitVal h1, digitVal h2, digitVal n1, digitVal n2,
            digitVal s1, digitVal s2 with
      | some a1, some a2, some a3, some a4, some b1, some b2, some e1, some e2,
        some f1, some f2, some g1, some g2, some k1, some k2 =>
        let mo := 10 * b1 + b2
        let da := 10 * e1 + e2
        let ho := 10 * f1 + f2
        let mi := 10 * g1 + g2
        let se := 10 * k1 + k2
        if 1 ≤ mo ∧ mo ≤ 12 ∧ 1 ≤ da ∧ da ≤ 31 ∧ ho ≤ 23 ∧ mi ≤ 59 ∧ se ≤ 59 then
          .ok ⟨1000 * a1 + 100 * a2 + 10 * a3 + a4, mo, da, ho, mi, se⟩
        else .error "time out of range"
      | _, _, _, _, _, _, _, _, _, _, _, _, _, _ => .error "bad digit in time"
    else .error "bad time layout"
  | _ => .error "bad time length"

/-- Model of the Go two-decimal rendering of a float64 price.  The exact
tie-rounding of the Go formatter is immaterial to the claims, which never
inspect the rendered digits of a tie. -/
def formatPrice (q : ℚ) : String :=
  let cents : Int := Int.floor (q * 100 + 1 / 2)
  let sign := if cents < 0 then "-" else ""
  let n := cents.natAbs
  sign ++ toString (n / 100) ++ "." ++ (if n % 100 < 10 then "0" else "") ++ toString (n % 100)

/-- GenerateTransactionObject of inventory.go. -/
def GenerateTransactionObject (buyerID sellerID cusip : String) (originalFace : Int)
    (boughtPrice : String) (timestamp : GoTime) : Transaction :=
  ⟨buyerID, sellerID, cusip, originalFace, boughtPrice, timestamp⟩

/-- CreateBondPublic: appends the bond to the ledger and writes the
document back once, returning the uid. -/
def CreateBondPublic (L : Ledger) (uid ownerHash bondID cusip class1 : String)
    (originalFace : Int) : Except String (String × Ledger × List Ledger) :=
  let bond : AgencyMBSPassthrough := ⟨uid, bondID, cusip, originalFace, ownerHash, class1⟩
  let L' : Ledger := { L with bonds := L.bonds ++ [bond] }
  .ok (uid, L', [L'])

/-- CreateBondPrivate: appends a PrivateBond to the private collection of
the caller; it writes nothing to the shared ledger. -/
def CreateBondPrivate (c : Caller) (uid : String) (reservePrice : ℚ) : Caller :=
  { c with privateBonds := c.privateBonds ++ [⟨uid, reservePrice⟩] }

/-- SetEncryptionKey: stores the MSP identifier of the caller as its
encryption key; it writes nothing to the shared ledger. -/
def SetEncryptionKey (c : Caller) : Caller :=
  { c with encryptionKey := some c.mspID }

/-- CheckDirectTrades: the open trades with the given cusip. -/
def CheckDirectTrades (L : Ledger) (cusip : String) : List DirectTrade :=
  L.directTrades.filter (fun t => t.cusip == cusip && t.state == "Open")

/-- GetYourDirectTrades: trades whose bidderHash equals the caller hash. -/
def GetYourDirectTrades (c : Caller) (L : Ledger) : Except String (List DirectTrade) :=
  match GenerateOrgHash c with
  | .error e => .error ("failed to generate bidder hash: " ++ e)
  | .ok bidderHash => .ok (L.directTrades.filter (fun t => t.bidderHash == bidderHash))

/-- CloseDirectTrade: locate the first trade with the given id; the first
match either closes (when IsOwner accepts the bidderHash) with one ledger
write, or fails; the state of the trade is never inspected. -/
def CloseDirectTrade (c : Caller) (L : Ledger) (tradeID : String) :
    Except String (Ledger × List Ledger) :=
  match findTrade tradeID L.directTrades with
  | none => .error "direct trade not found"
  | some (i, trade0) =>
    if IsOwner c trade0.bidderHash then
      let L' : Ledger := { L with directTrades := L.directTrades.set i { trade0 with state := "Closed" } }
      .ok (L', [L'])
    else .error "you are not the owner of the trade"

/-- CreateTrade: parses the creation time, then appends a new Open trade
carrying the caller-supplied bidderHash (the in-engine derivation is
commented out in the source) with an empty answers list, in one write. -/
def CreateTrade (L : Ledger) (directTradeID bidderHash cusip createdAtString : String)
    (originalFace : Int) (bidPrice : ℚ) : Except String (String × Ledger × List Ledger) :=
  match parseTimeZ createdAtString with
  | .error e => .error ("error parsing time: " ++ e)
  | .ok parsedTime =>
    let trade : DirectTrade := ⟨directTradeID, cusip, originalFace, bidPrice, bidderHash, "Open", [], parsedTime⟩
    let L' : Ledger := { L with directTrades := L.directTrades ++ [trade] }
    .ok (directTradeID, L', [L'])

/-- AnswerTrade (the seller-answer entry point): locate the trade, locate
or create the answer entry for the seller hash, set its sellerResponse to
the given value and timestamp, clear its buyerResponse to the empty value
and the zero time, and write the document back once.  The source performs
no authorization check, no inventory check and no trade-state check. -/
def AnswerTrade (L : Ledger) (directTradeID sellerIDHash answerValue : String)
    (timestamp : GoTime) : Except String (Ledger × List Ledger) :=
  match findTrade directTradeID L.directTrades with
  | none => .error "direct trade not found"
  | some (i, trade0) =>
    let fa := match findAnswer sellerIDHash trade0.answers with
      | some (j, a) => (trade0.answers, j, a)
      | none => (trade0.answers ++ [emptyAnswer sellerIDHash], trade0.answers.length, emptyAnswer sellerIDHash)
    let ans1 : Answer := { fa.2.2 with sellerResponse := ⟨answerValue, timestamp⟩,
                                       buyerResponse := ⟨"", GoTime.zero⟩ }
    let trade1 : DirectTrade := { trade0 with answers := fa.1.set fa.2.1 ans1 }
    let L' : Ledger := { L with directTrades := L.directTrades.set i trade1 }
    .ok (L', [L'])

/-- AnswerTradeAsOwner (the buyer-answer entry point): locate the trade,
require it Open, require the caller MSP identifier to equal the bidderHash,
locate or create the answer entry for the seller hash and set its
buyerResponse; when both responses now hold the value yes, reassign the
first bond whose ownerHash equals the seller hash (failing when the seller
owns no bond at all), close the trade and append the transaction record;
in every success path exactly one ledger write happens, at the end. -/
def AnswerTradeAsOwner (c : Caller) (L : Ledger)
    (directTradeID sellerIDHash answerValue : String) (timestamp : GoTime) :
    Except String (Ledger × List Ledger) :=
  match findTrade directTradeID L.directTrades with
  | none => .error "direct trade not found"
  | some (i, trade0) =>
    if trade0.state ≠ "Open" then .error "direct trade is closed"
    else if trade0.bidderHash ≠ c.mspID then .error "you are not the owner of the trade"
    else
      let fa := match findAnswer sellerIDHash trade0.answers with
        | some (j, a) => (trade0.answers, j, a)
        | none => (trade0.answers ++ [emptyAnswer sellerIDHash], trade0.answers.length, emptyAnswer sellerIDHash)
      let ans1 : Answer := { fa.2.2 with buyerResponse := ⟨answerValue, timestamp⟩ }
      let trade1 : DirectTrade := { trade0 with answers := fa.1.set fa.2.1 ans1 }
      if ans1.sellerResponse.value = "yes" ∧ ans1.buyerResponse.value = "yes" then
        if L.bonds.any (fun b => b.ownerHash == sellerIDHash) then
          let trade2 : DirectTrade := { trade1 with state := "Closed" }
          let txn := GenerateTransactionObject trade0.bidderHash ans1.sellerIDHash trade0.cusip
            trade0.originalFace (formatPrice trade0.bidPrice) timestamp
          let L' : Ledger := ⟨transferFirst sellerIDHash trade0.bidderHash L.bonds,
                              L.directTrades.set i trade2,
                              L.transactions ++ [txn]⟩
          .ok (L', [L'])
        else .error "the seller does not own any bonds for this trade"
      else
        let L' : Ledger := { L with directTrades := L.directTrades.set i trade1 }
        .ok (L', [L'])

/-- CreateTransaction: appends a transaction record with the two-decimal
rendering of the price, in one write. -/
def CreateTransaction (L : Ledger) (buyerID sellerID cusip : String) (originalFace : Int)
    (boughtPrice : ℚ) (timestamp : GoTime) : Except String (Ledger × List Ledger) :=
  let txn : Transaction := ⟨buyerID, sellerID, cusip, originalFace, formatPrice boughtPrice, timestamp⟩
  let L' : Ledger := { L with transactions := L.transactions ++ [txn] }
  .ok (L', [L'])

/-- GetBond loop body: for every public bond with the requested cusip, pair
it with the private bond of the same uid; a missing private bond aborts the
whole operation with the error of getPrivateBond. -/
def GetBondLoop (c : Caller) (cusip : String) :
    List AgencyMBSPassthrough → Except String (List (AgencyMBSPassthrough × PrivateBond))
  | [] => .ok []
  | b :: rest =>
    if b.cusip == cusip then
      match getPrivateBond c b.uid with
      | .error e => .error e
      | .ok p => (GetBondLoop c cusip rest).map (fun l => (b, p) :: l)
    else GetBondLoop c cusip rest

/-- GetBond of inventory.go: all public bonds with the given cusip, each
paired with the private bond of the same uid from the private collection of
the caller; an absent private bond makes getPrivateBond fail and the error
is returned to the caller; an empty result is also an error. -/
def GetBond (c : Caller) (L : Ledger) (cusip : String) :
    Except String (List (AgencyMBSPassthrough × PrivateBond)) :=
  match GetBondLoop c cusip L.bonds with
  | .error e => .error e
  | .ok result =>
    if result.length = 0 then
      .error ("could not find any bonds with specified Cusip: " ++ cusip)
    else .ok result

/-- GetAllBonds: the bonds list of the ledger. -/
def GetAllBonds (L : Ledger) : List AgencyMBSPassthrough := L.bonds

/-- GetAllTransactions: the transactions list of the ledger. -/
def GetAllTransactions (L : Ledger) : List Transaction := L.transactions

/-- GetAllYourBonds: bonds owned by the caller hash, each paired with the
private bond of the same uid (failing, like GetBond, when one is absent). -/
def GetAllYourBonds (c : Caller) (L : Ledger) :
    Except String (List (AgencyMBSPassthrough × PrivateBond)) :=
  match GenerateOrgHash c with
  | .error e => .error ("failed to generate bidder hash: " ++ e)
  | .ok bidderHash =>
    L.bonds.foldr
      (fun b acc =>
        if b.ownerHash == bidderHash then
          match getPrivateBond c b.uid with
          | .error e => .error e
          | .ok p => acc.map (fun l => (b, p) :: l)
        else acc)
      (.ok [])

/-- The operation surface of the contract, one constructor per exported
method of inventory.go that a client can invoke. -/
inductive Op where
  | createBondPublic (uid ownerHash bondID cusip class1 : String) (originalFace : Int)
  | createBondPrivate (uid : String) (reservePrice : ℚ)
  | setEncryptionKey
  | checkDirectTrades (cusip : String)
  | closeDirectTrade (tradeID : String)
  | createTrade (directTradeID bidderHash cusip createdAtString : String) (originalFace : Int) (bidPrice : ℚ)
  | answerTrade (directTradeID sellerIDHash answerValue : String) (timestamp : GoTime)
  | answerTradeAsOwner (directTradeID sellerIDHash answerValue : String) (timestamp : GoTime)
  | createTransaction (buyerID sellerID cusip : String) (originalFace : Int) (boughtPrice : ℚ) (timestamp : GoTime)
  | getBond (cusip : String)
  | getAllBonds
  | getAllTransactions
  | getAllYourBonds
  | getYourDirectTrades
deriving DecidableEq, Repr

/-- Whether the operation is the trade-creating one. -/
def Op.isCreateTrade : Op → Bool
  | .createTrade _ _ _ _ _ _ => true
  | _ => false

/-- Effect of one contract invocation on the shared ledger document: the
final ledger together with the chronological list of writes of the ledger
key.  Reads and private-collection writers touch the shared ledger not at
all (they perform no PutState of the ledger key), which the empty write
list records. -/
def applyOp (c : Caller) (L : Ledger) : Op → Except String (Ledger × List Ledger)
  | .createBondPublic uid ownerHash bondID cusip class1 f =>
      (CreateBondPublic L uid ownerHash bondID cusip class1 f).map (fun r => r.2)
  | .createBondPrivate _ _ => .ok (L, [])
  | .setEncryptionKey => .ok (L, [])
  | .checkDirectTrades _ => .ok (L, [])
  | .closeDirectTrade tid => CloseDirectTrade c L tid
  | .createTrade tid bh cu ca f bp => (CreateTrade L tid bh cu ca f bp).map (fun r => r.2)
  | .answerTrade tid s v ts => AnswerTrade L tid s v ts
  | .answerTradeAsOwner tid s v ts => AnswerTradeAsOwner c L tid s v ts
  | .createTransaction b se cu f bp ts => CreateTransaction L b se cu f bp ts
  | .getBond cu => (GetBond c L cu).map (fun _ => (L, []))
  | .getAllBonds => .ok (L, [])
  | .getAllTransactions => .ok (L, [])
  | .getAllYourBonds => (GetAllYourBonds c L).map (fun _ => (L, []))
  | .getYourDirectTrades => (GetYourDirectTrades c L).map (fun _ => (L, []))

/-- Monotonicity of trade closure between two trade lists: Closed entries
stay Closed at their index, the list only grows, and every fresh entry is
Open. -/
def TradesMono (old new : List DirectTrade) : Prop :=
  (∀ i (hi : i < old.length) (hi' : i < new.length),
      old[i].state = "Closed" → new[i].state = "Closed")
  ∧ old.length ≤ new.length
  ∧ (∀ i (hi' : i < new.length), old.length ≤ i → new[i].state = "Open")

/-- The derivation the spec names DeriveOwnerHash with an organization and
a timestamp argument.  The source has exactly one hash derivation,
GenerateOrgHash, and it takes no timestamp: this wrapper gives the
timestamp parameter of the spec a formal place so that timestamp
sensitivity can be stated; the body is the source derivation, which
ignores the timestamp. -/
def DeriveOwnerHash (c : Caller) (_t : GoTime) : Except String String :=
  GenerateOrgHash c

/-! Concrete sample data used by the witness and counterexample theorems. -/

/-- Sample timestamp for the C1 seller answer. -/
def tsC1a : GoTime := ⟨2024, 1, 2, 3, 4, 5⟩

/-- Sample timestamp for the C1 buyer answer. -/
def tsC1b : GoTime := ⟨2024, 1, 2, 3, 4, 6⟩

/-- Sample answer with a recorded seller yes. -/
def ansC1 : Answer := ⟨"SellerHash", ⟨"yes", tsC1a⟩, ⟨"", GoTime.zero⟩⟩

/-- Sample open trade awaiting the buyer confirmation. -/
def tradeC1 : DirectTrade :=
  ⟨"t1", "CUSIP1", 100, (199/2 : ℚ), "Org2MSP", "Open", [ansC1], tsC1a⟩

/-- Sample ledger with one seller-owned bond and the C1 trade. -/
def ledgerC1 : Ledger := ⟨[⟨"u1", "b1", "CUSIP1", 100, "SellerHash", "c1"⟩], [tradeC1], []⟩

/-- The trade initiator of the C1 scenario. -/
def callerC1 : Caller := ⟨"Org2MSP", some "Org2MSP", []⟩

/-- Sample timestamp for the C2 scenario. -/
def tsC2 : GoTime := ⟨2024, 1, 2, 3, 4, 5⟩

/-- Sample open trade of the C2 scenario. -/
def tradeC2 : DirectTrade := ⟨"t2", "CUSIP2", 100, (50 : ℚ), "Org2MSP", "Open", [], tsC2⟩

/-- Sample ledger where no bond is owned by the answering seller hash. -/
def ledgerC2 : Ledger := ⟨[⟨"u1", "b1", "CUSIP2", 100, "SomeOtherOwner", "c1"⟩], [tradeC2], []⟩

/-- Sample timestamp for the C3 counterexample. -/
def tsC3 : GoTime := ⟨2024, 1, 2, 3, 4, 5⟩

/-- A Closed trade, for the C3 counterexample. -/
def tradeC3 : DirectTrade := ⟨"t3", "CUSIP3", 100, (50 : ℚ), "Org2MSP", "Closed", [], tsC3⟩

/-- Ledger holding only the closed C3 trade. -/
def ledgerC3 : Ledger := ⟨[], [tradeC3], []⟩

/-- A caller who is not the initiator of the C3 trade. -/
def callerC3 : Caller := ⟨"Org9MSP", some "Org9MSP", []⟩

/-- Sample timestamp for the C3 witness. -/
def tsC3w : GoTime := ⟨2024, 1, 2, 3, 4, 5⟩

/-- An Open trade for the C3 witness. -/
def tradeC3w : DirectTrade := ⟨"t3w", "CUSIP3", 100, (50 : ℚ), "Org2MSP", "Open", [], tsC3w⟩

/-- Ledger holding the open C3 witness trade. -/
def ledgerC3w : Ledger := ⟨[], [tradeC3w], []⟩

/-- A caller who is not the initiator of the C3 witness trade. -/
def callerC3w : Caller := ⟨"Org9MSP", some "Org9MSP", []⟩

/-- Timestamp of the stale buyer yes in the C4 witness. -/
def tsC4a : GoTime := ⟨2024, 1, 2, 3, 4, 5⟩

/-- Timestamp of the new seller answer in the C4 witness. -/
def tsC4b : GoTime := ⟨2024, 1, 2, 3, 4, 6⟩

/-- Open trade whose answer entry carries a stale buyer yes. -/
def tradeC4 : DirectTrade :=
  ⟨"t4", "CUSIP4", 100, (50 : ℚ), "Org2MSP", "Open",
   [⟨"SellerHash", ⟨"yes", tsC4a⟩, ⟨"yes", tsC4a⟩⟩], tsC4a⟩

/-- Ledger holding the C4 witness trade. -/
def ledgerC4 : Ledger := ⟨[], [tradeC4], []⟩

/-- Sample timestamp for the C5 scenario. -/
def tsC5 : GoTime := ⟨2024, 1, 2, 3, 4, 5⟩

/-- A seller-owned bond in a different instrument than the C5 trade,
listed first. -/
def bondOtherC5 : AgencyMBSPassthrough := ⟨"u1", "b1", "OTHERCUSIP", 50, "SellerHash", "c"⟩

/-- The seller-owned bond in the instrument the C5 trade is about, listed
second. -/
def bondMatchC5 : AgencyMBSPassthrough := ⟨"u2", "b2", "CUSIP5", 100, "SellerHash", "c"⟩

/-- Open C5 trade with a recorded seller yes. -/
def tradeC5 : DirectTrade :=
  ⟨"t5", "CUSIP5", 100, (100 : ℚ), "Org2MSP", "Open",
   [⟨"SellerHash", ⟨"yes", tsC5⟩, ⟨"", GoTime.zero⟩⟩], tsC5⟩

/-- Ledger listing the off-instrument bond before the matching one. -/
def ledgerC5 : Ledger := ⟨[bondOtherC5, bondMatchC5], [tradeC5], []⟩

/-- The trade initiator of the C5 scenario. -/
def callerC5 : Caller := ⟨"Org2MSP", some "Org2MSP", []⟩

/-- Sample timestamp for the C6 witness. -/
def tsC6 : GoTime := ⟨2024, 1, 2, 3, 4, 5⟩

/-- Open trade of the C6 witness ledger. -/
def tradeC6 : DirectTrade := ⟨"t6", "CUSIP6", 100, (50 : ℚ), "Org2MSP", "Open", [], tsC6⟩

/-- Ledger of the C6 witness before the operation. -/
def ledgerC6 : Ledger := ⟨[], [tradeC6], []⟩

/-- Ledger of the C6 witness after the operation. -/
def ledgerC6' : Ledger :=
  ⟨[], [{ tradeC6 with answers := [⟨"SellerHash", ⟨"yes", tsC6⟩, ⟨"", GoTime.zero⟩⟩] }], []⟩

/-- The C6 witness operation: a seller answer. -/
def opC6 : Op := .answerTrade "t6" "SellerHash" "yes" tsC6

/-- The C6 witness caller. -/
def callerC6 : Caller := ⟨"Org1MSP", some "Org1MSP", []⟩

/-- Sample timestamp for the C8 counterexample. -/
def tsC8 : GoTime := ⟨2024, 1, 2, 3, 4, 5⟩

/-- A trade that is already Closed, for the C8 counterexample. -/
def tradeC8 : DirectTrade := ⟨"t8", "CUSIP8", 100, (50 : ℚ), "Org2MSP", "Closed", [], tsC8⟩

/-- Ledger holding only the closed C8 trade. -/
def ledgerC8 : Ledger := ⟨[], [tradeC8], []⟩

/-- The initiator of the closed C8 trade. -/
def callerC8 : Caller := ⟨"Org2MSP", some "Org2MSP", []⟩

/-- Sample timestamp for the C8 witness. -/
def tsC8w : GoTime := ⟨2024, 1, 2, 3, 4, 5⟩

/-- An Open trade for the C8 witness. -/
def tradeC8w : DirectTrade := ⟨"t8w", "CUSIP8", 100, (50 : ℚ), "Org2MSP", "Open", [], tsC8w⟩

/-- Ledger holding the open C8 witness trade. -/
def ledgerC8w : Ledger := ⟨[], [tradeC8w], []⟩

/-- The initiator of the C8 witness trade. -/
def callerC8w : Caller := ⟨"Org2MSP", some "Org2MSP", []⟩

/-! Supporting lemmas about the first-match search, list updates and the
bond-transfer loop. -/

theorem findWithIdx_some {α : Type} {p : α → Bool} {l : List α} {i : Nat} {x : α}
    (h : findWithIdx p l = some (i, x)) :
    ∃ hi : i < l.length, l[i] = x ∧ p x = true := by
  induction l generalizing i with
  | nil => simp [findWithIdx] at h
  | cons y rest ih =>
    rw [findWithIdx] at h
    by_cases hy : p y
    · simp only [if_pos hy, Option.some.injEq, Prod.mk.injEq] at h
      obtain ⟨hi, hx⟩ := h
      subst hi; subst hx
      exact ⟨by simp, rfl, hy⟩
    · rw [if_neg hy] at h
      rcases hr : findWithIdx p rest with _ | ⟨j, z⟩
      · rw [hr] at h; simp at h
      · rw [hr] at h
        simp only [Option.map_some', Option.some.injEq, Prod.mk.injEq] at h
        obtain ⟨hi, hx⟩ := h
        subst hi; subst hx
        obtain ⟨hj, hz, hp⟩ := ih hr
        exact ⟨Nat.succ_lt_succ hj, by simpa using hz, hp⟩

theorem findWithIdx_set {α : Type} {p : α → Bool} {l : List α} {i : Nat} {x : α} (y : α)
    (h : findWithIdx p l = some (i, x)) (hy : p y = true) :
    findWithIdx p (l.set i y) = some (i, y) := by
  induction l generalizing i with
  | nil => simp [findWithIdx] at h
  | cons z rest ih =>
    rw [findWithIdx] at h
    by_cases hz : p z
    · simp only [if_pos hz, Option.some.injEq, Prod.mk.injEq] at h
      obtain ⟨hi, _⟩ := h
      subst hi
      simp [findWithIdx, hy]
    · rw [if_neg hz] at h
      rcases hr : findWithIdx p rest with _ | ⟨j, w⟩
      · rw [hr] at h; simp at h
      · rw [hr] at h
        simp only [Option.map_some', Option.some.injEq, Prod.mk.injEq] at h
        obtain ⟨hi, hx⟩ := h
        subst hi; subst hx
        show findWithIdx p (z :: rest.set j y) = _
        rw [findWithIdx, if_neg hz, ih hr]
        rfl

theorem findWithIdx_append {α : Type} {p : α → Bool} {l : List α} {y : α}
    (h : findWithIdx p l = none) (hy : p y = true) :
    findWithIdx p (l ++ [y]) = some (l.length, y) := by
  induction l with
  | nil => simp [findWithIdx, hy]
  | cons z rest ih =>
    rw [findWithIdx] at h
    by_cases hz : p z
    · simp [if_pos hz] at h
    · rw [if_neg hz] at h
      have hr : findWithIdx p rest = none := by
        rcases hr : findWithIdx p rest with _ | q
        · rfl
        · rw [hr] at h; simp at h
      show findWithIdx p (z :: (rest ++ [y])) = _
      rw [findWithIdx, if_neg hz, ih hr]
      rfl

theorem set_concat {α : Type} (l : List α) (e y : α) :
    (l ++ [e]).set l.length y = l ++ [y] := by
  induction l with
  | nil => rfl
  | cons z rest ih =>
    show z :: (rest ++ [e]).set rest.length y = z :: (rest ++ [y])
    rw [ih]

theorem transferFirst_spec {l : List AgencyMBSPassthrough} {s new : String}
    (h : l.any (fun b => b.ownerHash == s) = true) :
    ∃ k, ∃ hk : k < l.length, l[k].ownerHash = s ∧
      transferFirst s new l = l.set k { l[k] with ownerHash := new } := by
  induction l with
  | nil => simp at h
  | cons b rest ih =>
    by_cases hb : b.ownerHash == s
    · refine ⟨0, by simp, by simpa using hb, ?_⟩
      rw [transferFirst, if_pos hb]
      rfl
    · have hr : rest.any (fun b => b.ownerHash == s) = true := by
        simp only [List.any_cons, hb, Bool.false_or] at h
        exact h
      obtain ⟨k, hk, hs, heq⟩ := ih hr
      refine ⟨k + 1, Nat.succ_lt_succ hk, by simpa using hs, ?_⟩
      rw [transferFirst, if_neg hb, heq]
      rfl

theorem tradesMono_refl (l : List DirectTrade) : TradesMono l l := by
  refine ⟨fun i hi hi' hcl => hcl, Nat.le_refl _, fun i hi' hge => ?_⟩
  omega

theorem tradesMono_set (l : List DirectTrade) (k : Nat) (t' : DirectTrade)
    (hs : ∀ hk : k < l.length, l[k].state = "Closed" → t'.state = "Closed") :
    TradesMono l (l.set k t') := by
  refine ⟨fun i hi hi' hcl => ?_, by rw [List.length_set], fun i hi' hge => ?_⟩
  · rw [List.getElem_set]
    by_cases hki : k = i
    · subst hki
      rw [if_pos rfl]
      exact hs hi hcl
    · rw [if_neg hki]
      exact hcl
  · rw [List.length_set] at hi'
    omega

theorem tradesMono_append_open (l : List DirectTrade) (t : DirectTrade)
    (ht : t.state = "Open") : TradesMono l (l ++ [t]) := by
  refine ⟨fun i hi hi' hcl => ?_, by simp, fun i hi' hge => ?_⟩
  · rw [List.getElem_append_left hi]
    exact hcl
  · have hlen : i < l.length + 1 := by simpa using hi'
    have hieq : i = l.length := by omega
    rw [List.getElem_concat_length l t i hieq hi']
    exact ht

/-! The claim theorems. -/

/-- C1: when the initiator of an Open trade submits a buyer yes answer for
a seller hash whose answer entry already records a seller yes, and the
seller owns at least one bond, the operation succeeds with exactly one
ledger write whose content simultaneously carries the reassigned bond
ownership (first bond of the seller becomes owned by the bidderHash of the
trade), the trade set to Closed with the updated buyer response, and
exactly one appended Transaction with buyer, seller, cusip, originalFace,
the rendering of the bid price and the given timestamp; no other ledger
state is ever written. -/
theorem answerTradeAsOwner_settlement_atomic
    (c : Caller) (L : Ledger) (tid s : String) (ts : GoTime)
    (i : Nat) (T : DirectTrade) (j : Nat) (a : Answer)
    (hT : findTrade tid L.directTrades = some (i, T))
    (hopen : T.state = "Open")
    (hbid : T.bidderHash = c.mspID)
    (ha : findAnswer s T.answers = some (j, a))
    (hyes : a.sellerResponse.value = "yes")
    (hbond : L.bonds.any (fun b => b.ownerHash == s) = true) :
    ∃ L', AnswerTradeAsOwner c L tid s "yes" ts = .ok (L', [L']) ∧
      (∃ k, ∃ hk : k < L.bonds.length, L.bonds[k].ownerHash = s ∧
        L'.bonds = L.bonds.set k { L.bonds[k] with ownerHash := T.bidderHash }) ∧
      L'.directTrades = L.directTrades.set i
        { T with state := "Closed",
                 answers := T.answers.set j { a with buyerResponse := ⟨"yes", ts⟩ } } ∧
      L'.transactions = L.transactions ++
        [⟨T.bidderHash, s, T.cusip, T.originalFace, formatPrice T.bidPrice, ts⟩] := by
  have hsid : a.sellerIDHash = s := by
    obtain ⟨_, _, hp⟩ := findWithIdx_some ha
    simpa using hp
  rw [AnswerTradeAsOwner, hT]
  dsimp only
  rw [if_neg (fun hne => hne hopen), if_neg (fun hne => hne hbid), ha]
  dsimp only
  rw [if_pos ⟨hyes, rfl⟩, if_pos hbond]
  obtain ⟨k, hk, hks, heq⟩ := transferFirst_spec hbond
  refine ⟨_, rfl, ⟨k, hk, hks, heq⟩, rfl, ?_⟩
  rw [GenerateTransactionObject, hsid]

/-- C1 witness: the settlement theorem applied to a concrete ledger with
one seller-owned bond, one open trade and a recorded seller yes. -/
theorem answerTradeAsOwner_settlement_atomic_witness :
    findTrade "t1" ledgerC1.directTrades = some (0, tradeC1) ∧
    tradeC1.state = "Open" ∧
    tradeC1.bidderHash = callerC1.mspID ∧
    findAnswer "SellerHash" tradeC1.answers = some (0, ansC1) ∧
    ansC1.sellerResponse.value = "yes" ∧
    ledgerC1.bonds.any (fun b => b.ownerHash == "SellerHash") = true ∧
    (∃ L', AnswerTradeAsOwner callerC1 ledgerC1 "t1" "SellerHash" "yes" tsC1b = .ok (L', [L']) ∧
      (∃ k, ∃ hk : k < ledgerC1.bonds.length, ledgerC1.bonds[k].ownerHash = "SellerHash" ∧
        L'.bonds = ledgerC1.bonds.set k { ledgerC1.bonds[k] with ownerHash := tradeC1.bidderHash }) ∧
      L'.directTrades = ledgerC1.directTrades.set 0
        { tradeC1 with state := "Closed",
                       answers := tradeC1.answers.set 0 { ansC1 with buyerResponse := ⟨"yes", tsC1b⟩ } } ∧
      L'.transactions = ledgerC1.transactions ++
        [⟨tradeC1.bidderHash, "SellerHash", tradeC1.cusip, tradeC1.originalFace,
          formatPrice tradeC1.bidPrice, tsC1b⟩]) :=
  ⟨rfl, rfl, rfl, rfl, rfl, rfl,
   answerTradeAsOwner_settlement_atomic callerC1 ledgerC1 "t1" "SellerHash" tsC1b 0 tradeC1 0 ansC1
     rfl rfl rfl rfl rfl rfl⟩

/-- C2: contrary to the claim, AnswerTrade performs no inventory check at
all: on a ledger where no bond at all is owned by the answering seller
hash, the seller answer still succeeds and mutates the trade instead of
failing Unauthorized. -/
theorem answerTrade_missing_inventory_check :
    (∀ b ∈ ledgerC2.bonds, ¬ b.ownerHash = "Org9Hash") ∧
    AnswerTrade ledgerC2 "t2" "Org9Hash" "yes" tsC2 =
      .ok (⟨ledgerC2.bonds,
            [{ tradeC2 with answers := [⟨"Org9Hash", ⟨"yes", tsC2⟩, ⟨"", GoTime.zero⟩⟩] }], []⟩,
           [⟨ledgerC2.bonds,
             [{ tradeC2 with answers := [⟨"Org9Hash", ⟨"yes", tsC2⟩, ⟨"", GoTime.zero⟩⟩] }], []⟩]) :=
  ⟨by decide, rfl⟩

/-- C3 (amended): a buyer answer by a caller whose MSP identifier differs
from the bidderHash of a trade present in the ledger always fails without
any ledger write, with the Unauthorized error when the trade is Open and
with the TradeClosed error when it is not (the state check of the source
precedes the identity check). -/
theorem answerTradeAsOwner_unauthorized
    (c : Caller) (L : Ledger) (tid s v : String) (ts : GoTime) (i : Nat) (T : DirectTrade)
    (hT : findTrade tid L.directTrades = some (i, T))
    (hne : T.bidderHash ≠ c.mspID) :
    AnswerTradeAsOwner c L tid s v ts =
      .error (if T.state = "Open" then "you are not the owner of the trade" else "direct trade is closed") := by
  rw [AnswerTradeAsOwner, hT]
  dsimp only
  by_cases hst : T.state = "Open"
  · rw [if_neg (fun hx => hx hst), if_pos hne, if_pos hst]
  · rw [if_pos hst, if_neg hst]

/-- C3 witness: the amended theorem applied to an open trade and a caller
who is not its initiator. -/
theorem answerTradeAsOwner_unauthorized_witness :
    findTrade "t3w" ledgerC3w.directTrades = some (0, tradeC3w) ∧
    tradeC3w.bidderHash ≠ callerC3w.mspID ∧
    AnswerTradeAsOwner callerC3w ledgerC3w "t3w" "SellerHash" "yes" tsC3w =
      .error (if tradeC3w.state = "Open" then "you are not the owner of the trade"
              else "direct trade is closed") :=
  ⟨rfl, by decide,
   answerTradeAsOwner_unauthorized callerC3w ledgerC3w "t3w" "SellerHash" "yes" tsC3w 0 tradeC3w
     rfl (by decide)⟩

/-- C3 counterexample: on a Closed trade, a buyer answer by a caller whose
derived hash differs from the bidderHash fails with the TradeClosed error,
not the Unauthorized one, so the claim that it always fails Unauthorized is
false as stated. -/
theorem buyerAnswer_closed_trade_not_unauthorized :
    GenerateOrgHash callerC3 = .ok "Org9MSP" ∧
    "Org9MSP" ≠ tradeC3.bidderHash ∧
    AnswerTradeAsOwner callerC3 ledgerC3 "t3" "SellerHash" "yes" tsC3 =
      .error "direct trade is closed" ∧
    "direct trade is closed" ≠ "you are not the owner of the trade" :=
  ⟨rfl, by decide, rfl, by decide⟩

/-- C4: a successful seller answer yields exactly one ledger write in which
the trade keeps its state and its (first) answer entry for the seller hash
holds the new seller response value with its timestamp and a buyer
response reset to the empty value and the zero time, so no stale buyer
yes survives the new seller answer. -/
theorem answerTrade_sets_seller_resets_buyer
    (L : Ledger) (tid s v : String) (ts : GoTime) (i : Nat) (T : DirectTrade)
    (hT : findTrade tid L.directTrades = some (i, T)) :
    ∃ L' T' j, AnswerTrade L tid s v ts = .ok (L', [L']) ∧
      findTrade tid L'.directTrades = some (i, T') ∧
      T'.state = T.state ∧
      findAnswer s T'.answers = some (j, ⟨s, ⟨v, ts⟩, ⟨"", GoTime.zero⟩⟩) := by
  have hTid : (fun t => t.directTradeID == tid) T = true := (findWithIdx_some hT).2.2
  rcases hfa : findAnswer s T.answers with _ | ⟨j, a⟩
  · rw [AnswerTrade, hT]
    dsimp only
    rw [hfa]
    dsimp only
    rw [set_concat]
    refine ⟨_, { T with answers := T.answers ++ [⟨s, ⟨v, ts⟩, ⟨"", GoTime.zero⟩⟩] },
      T.answers.length, rfl, ?_, rfl, ?_⟩
    · exact findWithIdx_set
        ({ T with answers := T.answers ++ [⟨s, ⟨v, ts⟩, ⟨"", GoTime.zero⟩⟩] }) hT hTid
    · exact findWithIdx_append hfa (by simp [emptyAnswer])
  · have hsid : a.sellerIDHash = s := by
      have hp := (findWithIdx_some hfa).2.2
      simpa using hp
    rw [AnswerTrade, hT]
    dsimp only
    rw [hfa]
    dsimp only
    rw [hsid]
    refine ⟨_, { T with answers := T.answers.set j ⟨s, ⟨v, ts⟩, ⟨"", GoTime.zero⟩⟩ },
      j, rfl, ?_, rfl, ?_⟩
    · exact findWithIdx_set
        ({ T with answers := T.answers.set j ⟨s, ⟨v, ts⟩, ⟨"", GoTime.zero⟩⟩ }) hT hTid
    · exact findWithIdx_set (⟨s, ⟨v, ts⟩, ⟨"", GoTime.zero⟩⟩ : Answer) hfa (by simp)

/-- C4 witness: the reset theorem applied to a trade whose answer entry
carries a stale buyer yes; after the new seller answer the stored entry has
the new seller value and an empty buyer response. -/
theorem answerTrade_sets_seller_resets_buyer_witness :
    findTrade "t4" ledgerC4.directTrades = some (0, tradeC4) ∧
    (∃ L' T' j, AnswerTrade ledgerC4 "t4" "SellerHash" "no" tsC4b = .ok (L', [L']) ∧
      findTrade "t4" L'.directTrades = some (0, T') ∧
      T'.state = tradeC4.state ∧
      findAnswer "SellerHash" T'.answers = some (j, ⟨"SellerHash", ⟨"no", tsC4b⟩, ⟨"", GoTime.zero⟩⟩)) :=
  ⟨rfl, answerTrade_sets_seller_resets_buyer ledgerC4 "t4" "SellerHash" "no" tsC4b 0 tradeC4 rfl⟩

/-- C5: settlement transfers the first bond whose ownerHash equals the
seller hash with no filter on cusip: on a ledger where the seller owns a
bond of a different cusip listed before their bond of the cusip of the
trade, the different-cusip bond is the one reassigned and the matching
bond keeps the seller as owner. -/
theorem settlement_transfers_first_bond_ignoring_cusip :
    bondOtherC5.cusip ≠ tradeC5.cusip ∧
    bondMatchC5.cusip = tradeC5.cusip ∧
    ∃ L' ws, AnswerTradeAsOwner callerC5 ledgerC5 "t5" "SellerHash" "yes" tsC5 = .ok (L', ws) ∧
      L'.bonds = [{ bondOtherC5 with ownerHash := "Org2MSP" }, bondMatchC5] :=
  ⟨by decide, rfl, _, _, rfl, rfl⟩

/-- C6: for every ledger and every contract operation that succeeds, a
trade Closed before stays Closed at its index, the trade list never
shrinks, every freshly introduced trade is Open, and every operation other
than trade creation leaves the number of trades unchanged: no operation
ever turns a Closed trade back into an Open one. -/
theorem directTrade_never_reopens
    (c : Caller) (L : Ledger) (op : Op) (L' : Ledger) (ws : List Ledger)
    (h : applyOp c L op = .ok (L', ws)) :
    TradesMono L.directTrades L'.directTrades ∧
      (op.isCreateTrade = false → L'.directTrades.length = L.directTrades.length) := by
  cases op with
  | createBondPublic uid ownerHash bondID cusip class1 f =>
    simp only [applyOp, CreateBondPublic, Except.map, Except.ok.injEq, Prod.mk.injEq] at h
    obtain ⟨h1, _⟩ := h
    subst h1
    exact ⟨tradesMono_refl _, fun _ => rfl⟩
  | createBondPrivate uid rp =>
    simp only [applyOp, Except.ok.injEq, Prod.mk.injEq] at h
    obtain ⟨h1, _⟩ := h
    subst h1
    exact ⟨tradesMono_refl _, fun _ => rfl⟩
  | setEncryptionKey =>
    simp only [applyOp, Except.ok.injEq, Prod.mk.injEq] at h
    obtain ⟨h1, _⟩ := h
    subst h1
    exact ⟨tradesMono_refl _, fun _ => rfl⟩
  | checkDirectTrades cu =>
    simp only [applyOp, Except.ok.injEq, Prod.mk.injEq] at h
    obtain ⟨h1, _⟩ := h
    subst h1
    exact ⟨tradesMono_refl _, fun _ => rfl⟩
  | getAllBonds =>
    simp only [applyOp, Except.ok.injEq, Prod.mk.injEq] at h
    obtain ⟨h1, _⟩ := h
    subst h1
    exact ⟨tradesMono_refl _, fun _ => rfl⟩
  | getAllTransactions =>
    simp only [applyOp, Except.ok.injEq, Prod.mk.injEq] at h
    obtain ⟨h1, _⟩ := h
    subst h1
    exact ⟨tradesMono_refl _, fun _ => rfl⟩
  | getBond cu =>
    rcases hx : GetBond c L cu with e | r
    · rw [applyOp, hx] at h
      simp [Except.map] at h
    · rw [applyOp, hx] at h
      simp only [Except.map, Except.ok.injEq, Prod.mk.injEq] at h
      obtain ⟨h1, _⟩ := h
      subst h1
      exact ⟨tradesMono_refl _, fun _ => rfl⟩
  | getAllYourBonds =>
    rcases hx : GetAllYourBonds c L with e | r
    · rw [applyOp, hx] at h
      simp [Except.map] at h
    · rw [applyOp, hx] at h
      simp only [Except.map, Except.ok.injEq, Prod.mk.injEq] at h
      obtain ⟨h1, _⟩ := h
      subst h1
      exact ⟨tradesMono_refl _, fun _ => rfl⟩
  | getYourDirectTrades =>
    rcases hx : GetYourDirectTrades c L with e | r
    · rw [applyOp, hx] at h
      simp [Except.map] at h
    · rw [applyOp, hx] at h
      simp only [Except.map, Except.ok.injEq, Prod.mk.injEq] at h
      obtain ⟨h1, _⟩ := h
      subst h1
      exact ⟨tradesMono_refl _, fun _ => rfl⟩
  | createTransaction b se cu f bp ts =>
    simp only [applyOp, CreateTransaction, Except.ok.injEq, Prod.mk.injEq] at h
    obtain ⟨h1, _⟩ := h
    subst h1
    exact ⟨tradesMono_refl _, fun _ => rfl⟩
  | createTrade tid bh cu ca f bp =>
    rcases hpt : parseTimeZ ca with e | t0
    · rw [applyOp, CreateTrade, hpt] at h
      simp [Except.map] at h
    · rw [applyOp, CreateTrade, hpt] at h
      simp only [Except.map, Except.ok.injEq, Prod.mk.injEq] at h
      obtain ⟨h1, _⟩ := h
      subst h1
      refine ⟨tradesMono_append_open _ _ rfl, fun hf => ?_⟩
      simp [Op.isCreateTrade] at hf
  | closeDirectTrade tid =>
    rcases hft : findTrade tid L.directTrades with _ | ⟨k, T⟩
    · rw [applyOp, CloseDirectTrade, hft] at h
      simp at h
    · rw [applyOp, CloseDirectTrade, hft] at h
      dsimp only at h
      by_cases hio : IsOwner c T.bidderHash
      · rw [if_pos hio] at h
        simp only [Except.ok.injEq, Prod.mk.injEq] at h
        obtain ⟨h1, _⟩ := h
        subst h1
        exact ⟨tradesMono_set _ _ _ (fun hk _ => rfl), fun _ => List.length_set _ _ _⟩
      · rw [if_neg hio] at h
        simp at h
  | answerTrade tid s v ts =>
    rcases hft : findTrade tid L.directTrades with _ | ⟨k, T⟩
    · rw [applyOp, AnswerTrade, hft] at h
      simp at h
    · rw [applyOp, AnswerTrade, hft] at h
      dsimp only at h
      simp only [Except.ok.injEq, Prod.mk.injEq] at h
      obtain ⟨h1, _⟩ := h
      subst h1
      obtain ⟨hklen, hget, _⟩ := findWithIdx_some hft
      refine ⟨tradesMono_set _ _ _ (fun hk hcl => ?_), fun _ => List.length_set _ _ _⟩
      have hTcl : T.state = "Closed" := by
        rw [← hget]
        exact hcl
      exact hTcl
  | answerTradeAsOwner tid s v ts =>
    rcases hft : findTrade tid L.directTrades with _ | ⟨k, T⟩
    · rw [applyOp, AnswerTradeAsOwner, hft] at h
      simp at h
    · rw [applyOp, AnswerTradeAsOwner, hft] at h
      dsimp only at h
      obtain ⟨hklen, hget, _⟩ := findWithIdx_some hft
      by_cases hst : T.state ≠ "Open"
      · rw [if_pos hst] at h
        simp at h
      · rw [if_neg hst] at h
        push_neg at hst
        by_cases hbh : T.bidderHash ≠ c.mspID
        · rw [if_pos hbh] at h
          simp at h
        · rw [if_neg hbh] at h
          split at h
          · split at h
            · simp only [Except.ok.injEq, Prod.mk.injEq] at h
              obtain ⟨h1, _⟩ := h
              subst h1
              exact ⟨tradesMono_set _ _ _ (fun hk _ => rfl), fun _ => List.length_set _ _ _⟩
            · simp at h
          · simp only [Except.ok.injEq, Prod.mk.injEq] at h
            obtain ⟨h1, _⟩ := h
            subst h1
            refine ⟨tradesMono_set _ _ _ (fun hk hcl => ?_), fun _ => List.length_set _ _ _⟩
            have hTcl : T.state = "Closed" := by
              rw [← hget]
              exact hcl
            rw [hst] at hTcl
            exact absurd hTcl (by decide)

/-- C6 witness: the invariant theorem applied to a concrete seller-answer
operation on a ledger with one open trade. -/
theorem directTrade_never_reopens_witness :
    applyOp callerC6 ledgerC6 opC6 = .ok (ledgerC6', [ledgerC6']) ∧
    (TradesMono ledgerC6.directTrades ledgerC6'.directTrades ∧
      (opC6.isCreateTrade = false → ledgerC6'.directTrades.length = ledgerC6.directTrades.length)) :=
  ⟨rfl, directTrade_never_reopens callerC6 ledgerC6 opC6 ledgerC6' [ledgerC6'] rfl⟩

/-- C7: contrary to the claim, CreateTrade does not derive the bidderHash:
it stores the caller-supplied request argument verbatim (here a value
unequal to anything derivable from the caller, whose derived hash is its
MSP identifier), while the created trade does start Open with an empty
answers list and the parsed creation time. -/
theorem createTrade_accepts_supplied_bidderHash :
    CreateTrade ⟨[], [], []⟩ "t7" "ForgedHash" "CUSIP7" "2024-01-02T03:04:05Z" 100 (50 : ℚ) =
      .ok ("t7",
        ⟨[], [⟨"t7", "CUSIP7", 100, (50 : ℚ), "ForgedHash", "Open", [], ⟨2024, 1, 2, 3, 4, 5⟩⟩], []⟩,
        [⟨[], [⟨"t7", "CUSIP7", 100, (50 : ℚ), "ForgedHash", "Open", [], ⟨2024, 1, 2, 3, 4, 5⟩⟩], []⟩]) ∧
    GenerateOrgHash ⟨"Org1MSP", some "Org1MSP", []⟩ = .ok "Org1MSP" ∧
    ("ForgedHash" : String) ≠ "Org1MSP" :=
  ⟨rfl, rfl, by decide⟩

/-- C8 (amended): CloseDirectTrade on a trade present in the ledger closes
it with one ledger write whenever IsOwner accepts the bidderHash,
regardless of the current state, leaving bonds and transactions exactly as
they were, and fails Unauthorized otherwise. -/
theorem closeDirectTrade_owner_gate
    (c : Caller) (L : Ledger) (tid : String) (i : Nat) (T : DirectTrade)
    (hT : findTrade tid L.directTrades = some (i, T)) :
    CloseDirectTrade c L tid =
      if IsOwner c T.bidderHash then
        .ok ({ L with directTrades := L.directTrades.set i { T with state := "Closed" } },
             [{ L with directTrades := L.directTrades.set i { T with state := "Closed" } }])
      else .error "you are not the owner of the trade" := by
  rw [CloseDirectTrade, hT]

/-- C8 witness: the gate theorem applied to a concrete open trade whose
initiator closes it. -/
theorem closeDirectTrade_owner_gate_witness :
    findTrade "t8w" ledgerC8w.directTrades = some (0, tradeC8w) ∧
    CloseDirectTrade callerC8w ledgerC8w "t8w" =
      (if IsOwner callerC8w tradeC8w.bidderHash then
        .ok ({ ledgerC8w with
                directTrades := ledgerC8w.directTrades.set 0 { tradeC8w with state := "Closed" } },
             [{ ledgerC8w with
                 directTrades := ledgerC8w.directTrades.set 0 { tradeC8w with state := "Closed" } }])
      else .error "you are not the owner of the trade") :=
  ⟨rfl, closeDirectTrade_owner_gate callerC8w ledgerC8w "t8w" 0 tradeC8w rfl⟩

/-- C8 counterexample: CloseDirectTrade succeeds on a trade that is already
Closed when the caller is its initiator, so the claim that it succeeds
only when the state is Open is false as stated. -/
theorem closeDirectTrade_succeeds_on_closed_trade :
    tradeC8.state = "Closed" ∧
    CloseDirectTrade callerC8 ledgerC8 "t8" =
      .ok (⟨[], [{ tradeC8 with state := "Closed" }], []⟩,
           [⟨[], [{ tradeC8 with state := "Closed" }], []⟩]) :=
  ⟨rfl, rfl⟩

/-- C9: the hash derivation of the source is deterministic but ignores the
timestamp entirely: with the same caller state it returns the stored
encryption key for any two distinct timestamps, so varying the timestamp
never changes the hash, contrary to the claim. -/
theorem generateOrgHash_ignores_timestamp :
    DeriveOwnerHash ⟨"Org1MSP", some "Org1MSP", []⟩ ⟨2024, 1, 2, 3, 4, 5⟩ = .ok "Org1MSP" ∧
    DeriveOwnerHash ⟨"Org1MSP", some "Org1MSP", []⟩ ⟨2025, 6, 7, 8, 9, 10⟩ = .ok "Org1MSP" ∧
    (⟨2024, 1, 2, 3, 4, 5⟩ : GoTime) ≠ ⟨2025, 6, 7, 8, 9, 10⟩ ∧
    DeriveOwnerHash ⟨"Org1MSP", some "Org1MSP", []⟩ ⟨2024, 1, 2, 3, 4, 5⟩ =
      DeriveOwnerHash ⟨"Org1MSP", some "Org1MSP", []⟩ ⟨2025, 6, 7, 8, 9, 10⟩ :=
  ⟨rfl, rfl, by decide, rfl⟩

/-- C10: contrary to the claim, the absence of a private extension for a
returned bond makes GetBond fail: on a ledger with one public bond of the
requested cusip whose uid has no counterpart in the private collection of
the caller, the operation returns the not-found error of getPrivateBond
instead of omitting the private half. -/
theorem getBond_errors_when_private_extension_absent :
    GetBond ⟨"Org2MSP", some "Org2MSP", []⟩
        ⟨[⟨"u1", "b1", "CUSIPX", 100, "OtherOrgHash", "c1"⟩], [], []⟩ "CUSIPX" =
      .error "private bond with UID u1 not found" := rfl

end FabricInventory
